import Mathlib

/-
Verification of the projective-coordinate elliptic-curve point arithmetic
in src/src/main.rs (Rust, num_bigint::BigInt).  The code performs plain
big-integer arithmetic with no modular reduction, so the embedding works
over Int.  Rust BigInt division truncates toward zero and panics on a zero
divisor; it is modelled by Int.tdiv, with the panic rendered as Option.none.
-/

/-- Projective point (X, Y, Z), the struct ProjectivePoint of src/src/main.rs.
Coordinates are arbitrary-precision signed integers. -/
@[ext]
structure ProjectivePoint where
  x : Int
  y : Int
  z : Int
deriving DecidableEq, Repr

/-- Embedding of point_double from src/src/main.rs, line for line:
t = (3 * x * x) * z * z, u = 2 * y * z, v = 2 * u * x * y,
w = t * t - 2 * v, x3 = w * u * u, y3 = t * (v - w) - 2 * (u * y) * (u * y),
z3 = u * u * u.  Note the factor z * z on t, present in the code. -/
def point_double (p : ProjectivePoint) : ProjectivePoint :=
  let t := (3 * p.x * p.x) * p.z * p.z
  let u := 2 * p.y * p.z
  let v := 2 * u * p.x * p.y
  let w := t * t - 2 * v
  let x3 := w * u * u
  let y3 := t * (v - w) - 2 * (u * p.y) * (u * p.y)
  let z3 := u * u * u
  ⟨x3, y3, z3⟩

/-- Embedding of point_add from src/src/main.rs, line for line.  The code
applies the generic chord formula unconditionally: there is no special case
for identity inputs, equal inputs, or inverse inputs. -/
def point_add (p q : ProjectivePoint) : ProjectivePoint :=
  let t0 := p.y * q.z
  let t1 := q.y * p.z
  let t := t0 - t1
  let u0 := p.x * q.z
  let u1 := q.x * p.z
  let u := u0 - u1
  let u_squared := u * u
  let v := p.z * q.z
  let w := t * t * v - u_squared * (u0 + u1)
  let x3 := w * u_squared
  let y3 := t * (u0 * u_squared - w) - t0 * u * u * u
  let z3 := u * u_squared
  ⟨x3, y3, z3⟩

/-- Embedding of to_affine from src/src/main.rs: the code computes
(x / z, y / z) with BigInt division, which truncates toward zero and panics
when z = 0.  The zero-divisor panic is modelled as Option.none; the code
itself returns the bare pair and has no error channel. -/
def to_affine (p : ProjectivePoint) : Option (Int × Int) :=
  if p.z = 0 then none
  else some (Int.tdiv p.x p.z, Int.tdiv p.y p.z)

/-- Doubling formulas exactly as the specification words them for a = 0:
T = 3 * X1 ^ 2 (no Z1 ^ 2 factor), U = 2 * Y1 * Z1, V = 2 * U * X1 * Y1,
W = T ^ 2 - 2 * V, X3 = W * U ^ 2, Y3 = T * (V - W) - 2 * (U * Y1) ^ 2,
Z3 = U ^ 3, carried over the integers since the code has no modulus.
Stated for comparison with point_double as the code computes it. -/
def point_double_spec (p : ProjectivePoint) : ProjectivePoint :=
  let t := 3 * p.x * p.x
  let u := 2 * p.y * p.z
  let v := 2 * u * p.x * p.y
  let w := t * t - 2 * v
  ⟨w * u * u, t * (v - w) - 2 * (u * p.y) * (u * p.y), u * u * u⟩

/-- C1: point_double does not compute the specified a = 0 doubling formulas.
The code multiplies t by z * z, so at P = (1, 1, 2) it returns
(2048, -1472, 64), while the formulas stated in the specification (and in
the comment inside point_double itself, with a = 0) give (-112, 13, 64). -/
theorem point_double_deviates_from_spec_formula :
    point_double ⟨1, 1, 2⟩ = ⟨2048, -1472, 64⟩ ∧
    point_double_spec ⟨1, 1, 2⟩ = ⟨-112, 13, 64⟩ ∧
    point_double ⟨1, 1, 2⟩ ≠ point_double_spec ⟨1, 1, 2⟩ := by
  decide

/-- C2: the identity is not neutral for point_add.  Adding the identity
point (0, 1, 0) to P = (1, 2, 1), on either side, yields the degenerate
triple (0, 0, 0) rather than P: the code has no identity special case. -/
theorem point_add_identity_not_neutral :
    point_add ⟨1, 2, 1⟩ ⟨0, 1, 0⟩ = ⟨0, 0, 0⟩ ∧
    point_add ⟨0, 1, 0⟩ ⟨1, 2, 1⟩ = ⟨0, 0, 0⟩ ∧
    (⟨0, 0, 0⟩ : ProjectivePoint) ≠ ⟨1, 2, 1⟩ := by
  decide

/-- C3: evaluation of to_affine at an identity point and at a finite point.
With Z = 0 the code divides by zero, which panics in num_bigint and aborts
rather than signalling a recoverable PointAtInfinity error; the panic is
modelled as none.  With Z not zero the code returns (X / Z, Y / Z) with
truncating integer division. -/
theorem to_affine_zero_z_panics :
    to_affine ⟨1, 2, 0⟩ = none ∧ to_affine ⟨6, 4, 2⟩ = some (3, 2) := by
  decide

/-- C4: point_add applied to equal arguments does not agree with
point_double in affine coordinates.  The generic chord formula degenerates
at P = Q: point_add P P is (0, 0, 0), whose affine conversion divides by
zero (modelled none), while point_double (1, 2, 1) converts to (-5, 0). -/
theorem point_add_self_degenerates :
    point_add ⟨1, 2, 1⟩ ⟨1, 2, 1⟩ = ⟨0, 0, 0⟩ ∧
    to_affine (point_add ⟨1, 2, 1⟩ ⟨1, 2, 1⟩) = none ∧
    to_affine (point_double ⟨1, 2, 1⟩) = some (-5, 0) := by
  decide

/-- C5: whenever Z1 = 0 or the intermediate U = 2 * Y1 * Z1 vanishes,
point_double returns a point whose third coordinate is 0, since the code
sets Z3 = U ^ 3. -/
theorem point_double_identity_inputs (p : ProjectivePoint)
    (h : p.z = 0 ∨ 2 * p.y * p.z = 0) : (point_double p).z = 0 := by
  have hu : 2 * p.y * p.z = 0 := by
    rcases h with h | h
    · rw [h, mul_zero]
    · exact h
  show 2 * p.y * p.z * (2 * p.y * p.z) * (2 * p.y * p.z) = 0
  rw [hu, zero_mul, zero_mul]

/-- C5 witness: the point (5, 0, 3) has U = 2 * 0 * 3 = 0 and doubles to a
point with Z3 = 0. -/
theorem point_double_identity_inputs_witness :
    ((⟨5, 0, 3⟩ : ProjectivePoint).z = 0 ∨
      2 * (⟨5, 0, 3⟩ : ProjectivePoint).y * (⟨5, 0, 3⟩ : ProjectivePoint).z = 0) ∧
    (point_double ⟨5, 0, 3⟩).z = 0 :=
  ⟨Or.inr (by decide), point_double_identity_inputs ⟨5, 0, 3⟩ (Or.inr (by decide))⟩

/-- C6: when U = X1 * Z2 - X2 * Z1 is 0 and T = Y1 * Z2 - Y2 * Z1 is not
(the inputs are inverse points), point_add returns a point whose third
coordinate is 0, since the code sets Z3 = U ^ 3. -/
theorem point_add_inverse_identity (p q : ProjectivePoint)
    (hU : p.x * q.z - q.x * p.z = 0) (hT : p.y * q.z - q.y * p.z ≠ 0) :
    (point_add p q).z = 0 := by
  show (p.x * q.z - q.x * p.z) * ((p.x * q.z - q.x * p.z) * (p.x * q.z - q.x * p.z)) = 0
  rw [hU, zero_mul]

/-- C6 witness: the points (1, 2, 1) and (1, 3, 1) have U = 0 and T = -1,
and their sum has Z3 = 0. -/
theorem point_add_inverse_identity_witness :
    (⟨1, 2, 1⟩ : ProjectivePoint).x * (⟨1, 3, 1⟩ : ProjectivePoint).z -
      (⟨1, 3, 1⟩ : ProjectivePoint).x * (⟨1, 2, 1⟩ : ProjectivePoint).z = 0 ∧
    (⟨1, 2, 1⟩ : ProjectivePoint).y * (⟨1, 3, 1⟩ : ProjectivePoint).z -
      (⟨1, 3, 1⟩ : ProjectivePoint).y * (⟨1, 2, 1⟩ : ProjectivePoint).z ≠ 0 ∧
    (point_add ⟨1, 2, 1⟩ ⟨1, 3, 1⟩).z = 0 :=
  ⟨by decide, by decide,
    point_add_inverse_identity ⟨1, 2, 1⟩ ⟨1, 3, 1⟩ (by decide) (by decide)⟩

/-- Helper: swapping the arguments of point_add negates t, u and hence the
odd-degree outputs.  The result has the same X3 and negated Y3 and Z3. -/
theorem point_add_swap_eq (p q : ProjectivePoint) :
    point_add q p = ⟨(point_add p q).x, -(point_add p q).y, -(point_add p q).z⟩ := by
  ext <;> simp [point_add] <;> ring

/-- C7 counterexample: point_add is not commutative on coordinate triples.
With P = (1, 2, 1) and Q = (4, 5, 1), point_add P Q = (-324, -81, -27) but
point_add Q P = (-324, 81, 27). -/
theorem point_add_not_commutative :
    point_add ⟨1, 2, 1⟩ ⟨4, 5, 1⟩ ≠ point_add ⟨4, 5, 1⟩ ⟨1, 2, 1⟩ := by
  decide

/-- C7 amended: point_add commutes only up to sign, swapping the arguments
returns the same X3 with Y3 and Z3 negated. -/
theorem point_add_swap_negates (p q : ProjectivePoint) :
    point_add q p = ⟨(point_add p q).x, -(point_add p q).y, -(point_add p q).z⟩ :=
  point_add_swap_eq p q

/-- C8 counterexample: doubling P = (1, 2, 1) with no modulus does not give
X = 588; the code yields X = -368, and the affine x coordinate is -5. -/
theorem point_double_demo_x_not_588 :
    (point_double ⟨1, 2, 1⟩).x ≠ 588 ∧
    to_affine (point_double ⟨1, 2, 1⟩) ≠ some (588, 0) := by
  decide

/-- C8 amended: in the unreduced behaviour, doubling P = (1, 2, 1) yields
the triple (-368, -11, 64), whose affine conversion is (-5, 0) under the
truncating integer division of the code. -/
theorem point_double_demo_eval :
    point_double ⟨1, 2, 1⟩ = ⟨-368, -11, 64⟩ ∧
    to_affine (point_double ⟨1, 2, 1⟩) = some (-5, 0) := by
  decide

/-- C9: round trip, lifting an affine pair (x, y) to the projective point
(x, y, 1) and converting back with to_affine returns exactly (x, y). -/
theorem to_affine_lift (x y : Int) : to_affine ⟨x, y, 1⟩ = some (x, y) := by
  simp [to_affine]

/-- C10 counterexample: the swapped sum does not denote the same affine
point even when Z3 is nonzero.  With P = (1, 2, 1), Q = (4, 5, 1) the sum
has Z3 = -27, and the affine conversions are (12, 3) versus (-12, 3): the
affine x coordinate is negated, not preserved. -/
theorem point_add_swap_affine_differs :
    (point_add ⟨1, 2, 1⟩ ⟨4, 5, 1⟩).z ≠ 0 ∧
    to_affine (point_add ⟨4, 5, 1⟩ ⟨1, 2, 1⟩) ≠
      to_affine (point_add ⟨1, 2, 1⟩ ⟨4, 5, 1⟩) := by
  decide

/-- C10 amended: swapping the arguments of point_add negates Y3 and Z3 and
keeps X3; consequently, when Z3 is nonzero the swapped result converts to
the affine point with negated x coordinate and the same y coordinate. -/
theorem point_add_swap_affine (p q : ProjectivePoint) :
    point_add q p = ⟨(point_add p q).x, -(point_add p q).y, -(point_add p q).z⟩ ∧
    ((point_add p q).z ≠ 0 →
      to_affine (point_add q p) =
        some (-(Int.tdiv (point_add p q).x (point_add p q).z),
              Int.tdiv (point_add p q).y (point_add p q).z)) := by
  refine ⟨point_add_swap_eq p q, fun hz => ?_⟩
  rw [point_add_swap_eq p q]
  simp [to_affine, hz, Int.neg_tdiv_neg]

/-- C10 witness: at P = (1, 2, 1), Q = (4, 5, 1) the sum has Z3 = -27 and
the swapped sum converts to the affine point with negated x coordinate. -/
theorem point_add_swap_affine_witness :
    (point_add (⟨1, 2, 1⟩ : ProjectivePoint) ⟨4, 5, 1⟩).z ≠ 0 ∧
    to_affine (point_add (⟨4, 5, 1⟩ : ProjectivePoint) ⟨1, 2, 1⟩) =
      some (-(Int.tdiv (point_add (⟨1, 2, 1⟩ : ProjectivePoint) ⟨4, 5, 1⟩).x
                (point_add (⟨1, 2, 1⟩ : ProjectivePoint) ⟨4, 5, 1⟩).z),
            Int.tdiv (point_add (⟨1, 2, 1⟩ : ProjectivePoint) ⟨4, 5, 1⟩).y
              (point_add (⟨1, 2, 1⟩ : ProjectivePoint) ⟨4, 5, 1⟩).z) :=
  ⟨by decide, (point_add_swap_affine ⟨1, 2, 1⟩ ⟨4, 5, 1⟩).2 (by decide)⟩
